import Mathlib

/-!
# helmwebclient: a shallow embedding of `helmAPI.go`

The HTTP handlers of `helmAPI.go` (`addRepo`, `listRepo`, `deleteRepo`,
`installChart`) are embedded as pure functions from an explicit world (the
registry file and the staging files) to a result made of the handler's outcome,
the world it leaves behind and the trace of the external calls it issued.

Everything the handlers obtain from outside the file (the JSON decoder, the
helm engine, the operating system's answers) is a field of `Env`; the
statements below quantify over every `Env`.
-/

namespace HelmWebClient

/-! ## Data model -/

/-- The `RepoElement` struct: the JSON body of the `/repo` requests. -/
structure RepoElement where
  Name : String
  Url : String
  deriving DecidableEq

/-- The `chartElement` struct: the JSON `data` value of the `/install` request. -/
structure chartElement where
  Name : String
  ReleaseName : String
  RepoName : String
  FilePath : String
  Version : String
  Args : String
  deriving DecidableEq

/-- The fields of helm's `repo.Entry` that the handlers set: `Name` and `URL`. -/
structure Entry where
  Name : String
  URL : String
  deriving DecidableEq

/-- The `Repositories` field of helm's `repo.File`, the parsed registry file. -/
structure File where
  Repositories : List Entry
  deriving DecidableEq

/-- The fields of helm's `chart.Metadata` read by `installChart`: the declared
type (`Type` in the source) and the declared dependencies, `none` being the
nil slice. -/
structure Metadata where
  Type_ : String
  Dependencies : Option (List String)
  deriving DecidableEq

/-- The part of helm's `chart.Chart` read by `installChart`. -/
structure Chart where
  Metadata : Metadata
  deriving DecidableEq

/-- The fields of helm's `action.Install` client that `installChart` reads or
assigns. -/
structure Install where
  Version : String
  Devel : Bool
  DependencyUpdate : Bool
  ReleaseName : String
  Namespace : String
  deriving DecidableEq

/-- The state of the registry file at `settings.RepositoryConfig`: missing,
present but failing to be read, or holding a parsed list of entries. -/
inductive FileState
  | absent
  | unreadable
  | content (f : File)
  deriving DecidableEq

/-- The part of the filesystem the handlers touch: the registry file and the
other files (path and bytes), among them the staged uploads. -/
structure World where
  registry : FileState
  files : List (String × List Nat)
  deriving DecidableEq

/-- External calls with an effect outside the handler, in the order issued. -/
inductive Event
  | setenv (key val : String)
  | stageUpload (path : String)
  | downloadIndex (c : Entry)
  | writeRegistry (path : String) (f : File)
  | dependencyUpdate (cp : String)
  | engineInstall (client : Install) (chart : Chart)
  | remove (path : String)
  deriving DecidableEq

/-- What `json.NewEncoder(response).Encode` is given: a message or the list of
repositories. -/
inductive Payload
  | text (s : String)
  | repos (l : List RepoElement)
  deriving DecidableEq

/-- How a handler ends: it writes a status and a payload and returns, it leaves
through `panic(err)`, or the process exits through `log.Fatal`. -/
inductive Outcome
  | responded (status : Nat) (body : Payload)
  | panicked
  | exited
  deriving DecidableEq

/-- The outcome of a handler, the world it leaves and the calls it made. -/
structure Result where
  out : Outcome
  world : World
  trace : List Event
  deriving DecidableEq

/-- The answers of everything outside `helmAPI.go`: the JSON decoder, helm's
repository and engine calls, and the operating system. A `Bool` answer is
`true` when the Go call returns a nil error. -/
structure Env where
  /-- The value of `settings.RepositoryConfig` -/
  RepositoryConfig : String
  /-- The call `json.Unmarshal(reqBody, &repoElement)`; `none` is a non-nil error -/
  unmarshalRepo : String → Option RepoElement
  /-- The call `json.Unmarshal([]byte(reqBody), &chartElement)` -/
  unmarshalChart : String → Option chartElement
  /-- The call `repo.NewChartRepository(&c, getter.All(settings))` -/
  NewChartRepository : Entry → Bool
  /-- The call `r.DownloadIndexFile()` -/
  DownloadIndexFile : Entry → Bool
  /-- The filesystem write inside `WriteFile(path, 0644)` -/
  WriteFile : String → File → Bool
  /-- The call `os.OpenFile(path, os.O_WRONLY|os.O_CREATE, 0666)` -/
  OpenFile : String → Bool
  /-- The call `actionConfig.Init(...)` -/
  Init : Bool
  /-- The client returned by `action.NewInstall(actionConfig)` -/
  NewInstall : Install
  /-- The call `client.ChartPathOptions.LocateChart(ref, settings)` -/
  LocateChart : String → Option String
  /-- The call `valueOpts.MergeValues(p)` -/
  MergeValues : Bool
  /-- The call `loader.Load(cp)` -/
  Load : String → Option Chart
  /-- The call `action.CheckDependencies(chartRequested, req)` -/
  CheckDependencies : Chart → List String → Bool
  /-- The call `man.Update()` of the dependency manager for the chart at `cp` -/
  ManagerUpdate : String → Bool
  /-- The call `client.Run(chartRequested, vals)` -/
  Run : Install → Chart → Bool

/-! ## The registry container (helm's `repo.File`) -/

/-- Modelled from the spec: helm's `repo.File.Has` is library code outside
`helmAPI.go`; the spec's "`entry.name` already present", names compared as
strings (case-sensitive). -/
def File.Has (r : File) (name : String) : Bool :=
  r.Repositories.any (fun rf => rf.Name == name)

/-- The loop of `repo.File.Update` on the entry list: the first entry of the
same name is overwritten, otherwise the entry is appended. -/
def updateEntries (e : Entry) : List Entry → List Entry
  | [] => [e]
  | x :: xs => if x.Name = e.Name then e :: xs else x :: updateEntries e xs

/-- Modelled from the spec: helm's `repo.File.Update` is library code outside
`helmAPI.go`; the spec's "appends/overwrites the entry". -/
def File.Update (r : File) (e : Entry) : File :=
  ⟨updateEntries e r.Repositories⟩

/-- Modelled from the spec: helm's `repo.File.Remove` is library code outside
`helmAPI.go`; the spec's "deletes": the entries of that name are dropped and
the answer tells whether there was one. -/
def File.Remove (r : File) (name : String) : File × Bool :=
  (⟨r.Repositories.filter (fun rf => rf.Name != name)⟩,
   r.Repositories.any (fun rf => rf.Name == name))

/-- The entries a reader of the registry file obtains: none unless the file is
present and readable. -/
def FileState.entries : FileState → List Entry
  | .absent => []
  | .unreadable => []
  | .content f => f.Repositories

/-- The error of a file read: the file does not exist, or anything else. -/
inductive ReadError
  | notExist
  | other
  deriving DecidableEq

/-- Modelled from the spec: helm's `repo.LoadFile` is library code outside
`helmAPI.go`; it reads and parses the registry file and returns an empty
`File` together with the error when the read fails. -/
def LoadFile (w : World) (_path : String) : File × Option ReadError :=
  match w.registry with
  | .absent => (⟨[]⟩, some .notExist)
  | .unreadable => (⟨[]⟩, some .other)
  | .content f => (f, none)

/-- Modelled from the spec: helm's `repo.File.WriteFile` is library code
outside `helmAPI.go`; the spec's `Persist`: the file at `path` holds `f`
afterwards when the write succeeds and is left as it was otherwise. -/
def WriteFile (env : Env) (w : World) (f : File) (path : String) : Bool × World :=
  if env.WriteFile path f then (true, { w with registry := .content f }) else (false, w)

/-! ## `prepareRepo`, `updateRepo` and the registry handlers -/

/-- The function `prepareRepo`: the registry file is read and parsed into `f`;
a missing or unreadable file leaves `f` empty. The directory creation and the
file lock taken and released inside `prepareRepo` do not change what a single
handler computes; the lock is modelled in `step` below. -/
def prepareRepo (env : Env) (w : World) : File × String :=
  (⟨w.registry.entries⟩, env.RepositoryConfig)

/-- The function `updateRepo`: the registry is loaded again, a repository
handle is built for every entry (`log.Fatal` when one cannot be built, here
`none`), and every index is downloaded, failures being logged only. The
downloads run in goroutines; they are listed in registry order. -/
def updateRepo (env : Env) (w : World) (repoFile : String) : Option (List Event) :=
  let f := (LoadFile w repoFile).1
  if f.Repositories.all env.NewChartRepository then
    some (f.Repositories.map Event.downloadIndex)
  else none

/-- The handler `addRepo` (PUT `/repo`). `body` is `none` when reading the
request body fails. -/
def addRepo (env : Env) (w : World) (body : Option String) : Result :=
  match body with
  | none => ⟨.responded 400 (.text "Invalid Input"), w, []⟩
  | some reqBody =>
    match env.unmarshalRepo reqBody with
    | none => ⟨.panicked, w, []⟩
    | some repoElement =>
      let (repoFileList, path) := prepareRepo env w
      if repoFileList.Has repoElement.Name then
        ⟨.responded 409 (.text "Repository already exists"), w, []⟩
      else
        let c : Entry := ⟨repoElement.Name, repoElement.Url⟩
        if !env.NewChartRepository c then
          ⟨.responded 400 (.text "Error in calling New Chart Repository"), w, []⟩
        else if !env.DownloadIndexFile c then
          ⟨.responded 400 (.text "Invalid Chart Repository"), w, [.downloadIndex c]⟩
        else
          let updated := repoFileList.Update c
          let t := [Event.downloadIndex c, Event.writeRegistry path updated]
          match WriteFile env w updated path with
          | (false, w1) => ⟨.responded 500 (.text "Error in writing to File"), w1, t⟩
          | (true, w1) =>
            match updateRepo env w1 path with
            | none => ⟨.exited, w1, t⟩
            | some refreshed => ⟨.responded 201 (.text "Added Repository"), w1, t ++ refreshed⟩

/-- The handler `listRepo` (GET `/repo`). -/
def listRepo (env : Env) (w : World) : Result :=
  let (repoFileList, _path) := prepareRepo env w
  let repoList := repoFileList.Repositories.map (fun e => (⟨e.Name, e.URL⟩ : RepoElement))
  ⟨.responded 200 (.repos repoList), w, []⟩

/-- The handler `deleteRepo` (DELETE `/repo`). -/
def deleteRepo (env : Env) (w : World) (body : Option String) : Result :=
  match body with
  | none => ⟨.responded 400 (.text "Invalid Input"), w, []⟩
  | some reqBody =>
    match env.unmarshalRepo reqBody with
    | none => ⟨.panicked, w, []⟩
    | some repoElement =>
      let (_repoFileList, path) := prepareRepo env w
      let (f, err) := LoadFile w path
      if err = some .notExist || f.Repositories.length == 0 then
        ⟨.responded 500 (.text "Repositories Not Configured"), w, []⟩
      else
        let (removed, found) := f.Remove repoElement.Name
        if !found then
          ⟨.responded 404 (.text "Repository Not found"), w, []⟩
        else
          match WriteFile env w removed path with
          | (false, w1) =>
            ⟨.responded 500 (.text "Error in writing to File"), w1, [.writeRegistry path removed]⟩
          | (true, w1) =>
            ⟨.responded 200 (.text "Repository Removed"), w1, [.writeRegistry path removed]⟩

/-! ## `installChart` -/

/-- The package variable `localChartPath`. -/
def localChartPath : String := "/opt/app/helmclient/chart/"

/-- The function `isChartInstallable`: the flag and the error it returns. -/
def isChartInstallable (ch : Chart) : Bool × Option String :=
  if ch.Metadata.Type_ = "" ∨ ch.Metadata.Type_ = "application" then (true, none)
  else (false, some (ch.Metadata.Type_ ++ " charts are not installable"))

/-- The multipart form of the `/install` request: the `data` value (empty when
missing) and the `file` attachment, a filename and its bytes. -/
structure InstallRequest where
  data : String
  file : Option (String × List Nat)
  deriving DecidableEq

/-- Writing `bytes` from offset 0 into a file opened with
`os.O_WRONLY|os.O_CREATE`, without truncation: bytes of the old content beyond
the new length stay. -/
def overwrite (old bytes : List Nat) : List Nat :=
  bytes ++ old.drop bytes.length

/-- The bytes of the file at `path`, empty when there is none. -/
def World.read (w : World) (path : String) : List Nat :=
  match w.files.find? (fun p => p.1 == path) with
  | some p => p.2
  | none => []

/-- The call `io.Copy(path, file)` on the file opened at `path`. -/
def World.copyTo (w : World) (path : String) (bytes : List Nat) : World :=
  { w with files := (path, overwrite (w.read path) bytes) :: w.files.filter (fun p => p.1 != path) }

/-- The call `os.Remove(path)`: the file is deleted when it exists; the flag
is `false` when there is nothing to delete (the error is logged only). -/
def World.remove (w : World) (path : String) : World × Bool :=
  ({ w with files := w.files.filter (fun p => p.1 != path) }, w.files.any (fun p => p.1 == path))

/-- What `installChart` holds once `loader.Load(cp)` has returned the chart. -/
structure Loaded where
  chartElement : chartElement
  fileName : String
  client : Install
  cp : String
  chartRequested : Chart
  world : World
  trace : List Event
  deriving DecidableEq

/-- The block of `installChart` that sets `_repoName`, `_chartName` and
`fileName` (in this order in the answer): with an empty `RepoName` the uploaded
file is copied under `localChartPath`, otherwise the repository reference of
the request is taken. An early exit of the handler is `Except.error`. -/
def resolveSource (env : Env) (w : World) (request : InstallRequest)
    (chartElement : chartElement) (t0 : List Event) :
    Except Result (String × String × String × World × List Event) :=
  if chartElement.RepoName = "" then
    match request.file with
    | none => .error ⟨.responded 400 (.text "Error in uploaded File"), w, t0⟩
    | some (fileName, bytes) =>
      let w1 := if env.OpenFile (localChartPath ++ fileName)
        then w.copyTo (localChartPath ++ fileName) bytes else w
      .ok ("/opt/app/helmclient/chart/", fileName, fileName, w1,
        t0 ++ [.stageUpload (localChartPath ++ fileName)])
  else .ok (chartElement.RepoName, chartElement.Name, "", w, t0)

/-- The first half of `installChart`, up to and including `loader.Load(cp)`:
decoding the request, resolving the source, initialising the engine client,
locating and loading the chart. An early exit of the handler is
`Except.error`. -/
def installChartLoad (env : Env) (w : World) (request : InstallRequest) : Except Result Loaded :=
  match env.unmarshalChart request.data with
  | none => .error ⟨.responded 400 (.text "Invalid Input"), w, []⟩
  | some chartElement =>
    let t0 := [Event.setenv "HELM_NAMESPACE" chartElement.ReleaseName]
    match resolveSource env w request chartElement t0 with
    | .error r => .error r
    | .ok (_repoName, _chartName, fileName, w1, t1) =>
      if !env.Init then .error ⟨.exited, w1, t1⟩
      else
        let client := env.NewInstall
        let client := if client.Version = "" ∧ client.Devel = true
          then { client with Version := ">0.0.0-0" } else client
        let client := { client with ReleaseName := chartElement.Name }
        match env.LocateChart (_repoName ++ "/" ++ _chartName) with
        | none => .error ⟨.responded 500 (.text "Error Locating Chart"), w1, t1⟩
        | some cp =>
          if !env.MergeValues then
            .error ⟨.responded 500 (.text "Error getting Chart Options"), w1, t1⟩
          else
            match env.Load cp with
            | none => .error ⟨.responded 500 (.text "Error loading Chart"), w1, t1⟩
            | some chartRequested => .ok ⟨chartElement, fileName, client, cp, chartRequested, w1, t1⟩

/-- The block of `installChart` guarded by
`req := chartRequested.Metadata.Dependencies; req != nil`: the dependency
check and, when it fails, the dependency manager pass or the early exit. The
answer is the trace so far. -/
def dependencyBlock (env : Env) (l : Loaded) : Except Result (List Event) :=
  match l.chartRequested.Metadata.Dependencies with
  | none => .ok l.trace
  | some req =>
    if env.CheckDependencies l.chartRequested req then .ok l.trace
    else if l.client.DependencyUpdate then
      if env.ManagerUpdate l.cp then .ok (l.trace ++ [.dependencyUpdate l.cp])
      else .error ⟨.responded 500 (.text "Error in Chart Dependency"), l.world,
        l.trace ++ [.dependencyUpdate l.cp]⟩
    else .error ⟨.responded 500 (.text "Error in Chart Dependency"), l.world, l.trace⟩

/-- The second half of `installChart`, from `isChartInstallable` on:
validation, the dependency check, the engine install call and the cleanup. -/
def installChartRun (env : Env) (l : Loaded) : Result :=
  if !(isChartInstallable l.chartRequested).1 then
    ⟨.responded 500 (.text "Invalid Chart"), l.world, l.trace⟩
  else
    match dependencyBlock env l with
    | .error r => r
    | .ok t =>
      let client := { l.client with Namespace := l.chartElement.ReleaseName }
      let t1 := t ++ [.engineInstall client l.chartRequested]
      if !env.Run client l.chartRequested then
        ⟨.responded 500 (.text "Error installing Chart"), l.world, t1⟩
      else
        let path := "/opt/app/helmclient/" ++ l.fileName
        ⟨.responded 201 (.text "Chart Installed Successfully"), (l.world.remove path).1,
          t1 ++ [.remove path]⟩

/-- The handler `installChart` (PUT `/install`). -/
def installChart (env : Env) (w : World) (request : InstallRequest) : Result :=
  match installChartLoad env w request with
  | .error r => r
  | .ok l => installChartRun env l

/-- The number of engine install calls in a trace. -/
def installCalls (t : List Event) : Nat :=
  (t.filter (fun e => match e with
    | .engineInstall _ _ => true
    | _ => false)).length

/-- The registry writes attempted in a trace. -/
def registryWrites (t : List Event) : Nat :=
  (t.filter (fun e => match e with
    | .writeRegistry _ _ => true
    | _ => false)).length

/-- The index downloads attempted in a trace. -/
def indexDownloads (t : List Event) : Nat :=
  (t.filter (fun e => match e with
    | .downloadIndex _ => true
    | _ => false)).length

/-! ## Two processes running `addRepo` on one registry file -/

/-- Where a process running `addRepo` on a decoded request stands. -/
inductive Pc
  /-- Inside `prepareRepo`, before `fileLock.TryLockContext` -/
  | start
  /-- Inside `prepareRepo`, the lock held, before `ioutil.ReadFile` -/
  | locked
  /-- Inside `prepareRepo`, the file read into `f`, the deferred `Unlock` pending -/
  | read (f : File)
  /-- Back in `addRepo` with `repoFileList = f`, the lock released -/
  | prepared (f : File)
  /-- After `Has`, `NewChartRepository` and `DownloadIndexFile`, before `Update` -/
  | downloaded (f : File)
  /-- The handler has ended -/
  | done (out : Outcome)
  deriving DecidableEq

/-- A process: its decoded request and where it stands. -/
structure Proc where
  request : RepoElement
  pc : Pc
  deriving DecidableEq

/-- Two processes sharing one world and one lock file; `lock` names the
process holding the lock (`false` the first, `true` the second). -/
structure System where
  world : World
  lock : Option Bool
  first : Proc
  second : Proc
  deriving DecidableEq

/-- The process named by `who`. -/
def System.proc (s : System) (who : Bool) : Proc :=
  if who then s.second else s.first

/-- The system with the process named by `who` moved to `pc`. -/
def System.goto (s : System) (who : Bool) (pc : Pc) : System :=
  if who then { s with second := { s.second with pc := pc } }
  else { s with first := { s.first with pc := pc } }

/-- One step of the process `who`, following `addRepo` and `prepareRepo`:
taking the lock (a step on a lock held by the other process is a retry that
changes nothing), reading the registry, releasing the lock on return from
`prepareRepo`, the checks and the index download, and last `Update`,
`WriteFile` and `updateRepo`. -/
def step (env : Env) (who : Bool) (s : System) : System :=
  let p := s.proc who
  let c : Entry := ⟨p.request.Name, p.request.Url⟩
  match p.pc with
  | .start =>
    match s.lock with
    | none => { s with lock := some who }.goto who .locked
    | some _ => s
  | .locked => s.goto who (.read (prepareRepo env s.world).1)
  | .read f => { s with lock := none }.goto who (.prepared f)
  | .prepared f =>
    if f.Has p.request.Name then
      s.goto who (.done (.responded 409 (.text "Repository already exists")))
    else if !env.NewChartRepository c then
      s.goto who (.done (.responded 400 (.text "Error in calling New Chart Repository")))
    else if !env.DownloadIndexFile c then
      s.goto who (.done (.responded 400 (.text "Invalid Chart Repository")))
    else s.goto who (.downloaded f)
  | .downloaded f =>
    match WriteFile env s.world (f.Update c) env.RepositoryConfig with
    | (false, w1) =>
      { s with world := w1 }.goto who (.done (.responded 500 (.text "Error in writing to File")))
    | (true, w1) =>
      match updateRepo env w1 env.RepositoryConfig with
      | none => { s with world := w1 }.goto who (.done .exited)
      | some _ => { s with world := w1 }.goto who (.done (.responded 201 (.text "Added Repository")))
  | .done _ => s

/-- The system after the steps of a schedule, each naming the process that
moves. -/
def run (env : Env) (schedule : List Bool) (s : System) : System :=
  schedule.foldl (fun acc who => step env who acc) s

/-- Two processes about to run `addRepo` with the given requests on world `w`. -/
def System.init (w : World) (r1 r2 : RepoElement) : System :=
  ⟨w, none, ⟨r1, .start⟩, ⟨r2, .start⟩⟩

/-! ## Concrete requests and environments used for evaluation -/

/-- The body `{"name":"stable","url":"https://example/index"}`. -/
def bodyStable : String := "\x7b\"name\":\"stable\",\"url\":\"https://example/index\"\x7d"

/-- The body `{"name":"bitnami","url":"https://example/bitnami"}`. -/
def bodyBitnami : String := "\x7b\"name\":\"bitnami\",\"url\":\"https://example/bitnami\"\x7d"

/-- The body `{"name":"stable"}`. -/
def bodyStableName : String := "\x7b\"name\":\"stable\"\x7d"

/-- The `data` value `{"name":"nginx","releaseName":"prod","repoName":"stable"}`. -/
def dataFromRepo : String :=
  "\x7b\"name\":\"nginx\",\"releaseName\":\"prod\",\"repoName\":\"stable\"\x7d"

/-- The `data` value `{"name":"nginx","releaseName":"prod"}`. -/
def dataUpload : String := "\x7b\"name\":\"nginx\",\"releaseName\":\"prod\"\x7d"

/-- A body that is not well-formed JSON: a lone opening brace. -/
def bodyMalformed : String := "\x7b"

/-- The entry decoded from `bodyStable`. -/
def stable : Entry := ⟨"stable", "https://example/index"⟩

/-- The entry decoded from `bodyBitnami`. -/
def bitnami : Entry := ⟨"bitnami", "https://example/bitnami"⟩

/-- What `json.Unmarshal` into a `RepoElement` answers on the bodies above;
every other body is taken as rejected. -/
def sampleUnmarshalRepo (s : String) : Option RepoElement :=
  if s = bodyStable then some ⟨"stable", "https://example/index"⟩
  else if s = bodyBitnami then some ⟨"bitnami", "https://example/bitnami"⟩
  else if s = bodyStableName then some ⟨"stable", ""⟩
  else none

/-- What `json.Unmarshal` into a `chartElement` answers on the `data` values
above; every other value is taken as rejected. -/
def sampleUnmarshalChart (s : String) : Option chartElement :=
  if s = dataFromRepo then some ⟨"nginx", "prod", "stable", "", "", ""⟩
  else if s = dataUpload then some ⟨"nginx", "prod", "", "", "", ""⟩
  else none

/-- An application chart without dependencies. -/
def appChart : Chart := ⟨⟨"application", none⟩⟩

/-- A library chart. -/
def libraryChart : Chart := ⟨⟨"library", some ["common"]⟩⟩

/-- An application chart declaring one dependency. -/
def dependentChart : Chart := ⟨⟨"application", some ["redis"]⟩⟩

/-- The loaded state of the request `dataFromRepo` when the chart loaded is
`ch`. -/
def loadedFromRepo (ch : Chart) : Loaded :=
  ⟨⟨"nginx", "prod", "stable", "", "", ""⟩, "", ⟨"", false, false, "nginx", ""⟩,
    "stable/nginx", ch, ⟨.absent, []⟩, [.setenv "HELM_NAMESPACE" "prod"]⟩

/-- An environment in which every external call succeeds, the located chart is
`appChart`, and the install client is the one `action.NewInstall` builds (no
version, `Devel` and `DependencyUpdate` unset). -/
def sampleEnv : Env where
  RepositoryConfig := "/root/.config/helm/repositories.yaml"
  unmarshalRepo := sampleUnmarshalRepo
  unmarshalChart := sampleUnmarshalChart
  NewChartRepository := fun _ => true
  DownloadIndexFile := fun _ => true
  WriteFile := fun _ _ => true
  OpenFile := fun _ => true
  Init := true
  NewInstall := ⟨"", false, false, "", ""⟩
  LocateChart := fun ref => some ref
  MergeValues := true
  Load := fun _ => some appChart
  CheckDependencies := fun _ _ => true
  ManagerUpdate := fun _ => true
  Run := fun _ _ => true

/-- The environment `sampleEnv` with `loader.Load` returning `libraryChart`. -/
def libraryEnv : Env := { sampleEnv with Load := fun _ => some libraryChart }

/-- The environment `sampleEnv` with `loader.Load` returning `dependentChart`
and `action.CheckDependencies` reporting an unfulfilled dependency. -/
def unmetEnv : Env :=
  { libraryEnv with Load := fun _ => some dependentChart, CheckDependencies := fun _ _ => false }

/-- The world with no registry file and no staged file. -/
def emptyWorld : World := ⟨.absent, []⟩

/-- A schedule in which the first process runs `prepareRepo` (lock, read,
unlock), then the second does, then the first checks, downloads and writes,
then the second does. Every lock acquisition succeeds at once. -/
def lostUpdateSchedule : List Bool :=
  [false, false, false, true, true, true, false, false, true, true]

/-! ## Lemmas on the registry container -/

theorem has_eq_true_iff (r : File) (name : String) :
    r.Has name = true ↔ name ∈ r.Repositories.map Entry.Name := by
  unfold File.Has
  simp only [List.any_eq_true, beq_iff_eq, List.mem_map]

theorem updateEntries_of_not_mem (e : Entry) (l : List Entry)
    (h : e.Name ∉ l.map Entry.Name) : updateEntries e l = l ++ [e] := by
  induction l with
  | nil => rfl
  | cons x xs ih =>
    simp only [List.map_cons, List.mem_cons, not_or] at h
    have hx : ¬ x.Name = e.Name := fun hxe => h.1 hxe.symm
    simp [updateEntries, hx, ih h.2]

theorem nodup_names_append (e : Entry) (l : List Entry)
    (hl : (l.map Entry.Name).Nodup) (h : e.Name ∉ l.map Entry.Name) :
    ((l ++ [e]).map Entry.Name).Nodup := by
  rw [List.map_append, List.nodup_append]
  refine ⟨hl, by simp, ?_⟩
  intro a ha hb
  simp only [List.map_cons, List.map_nil, List.mem_singleton] at hb
  exact h (hb ▸ ha)

theorem nodup_names_filter (p : Entry → Bool) (l : List Entry)
    (hl : (l.map Entry.Name).Nodup) : ((l.filter p).map Entry.Name).Nodup :=
  hl.sublist ((List.filter_sublist l).map Entry.Name)

/-- The HTTP status a handler wrote, if it returned normally. -/
def Outcome.status : Outcome → Option Nat
  | .responded st _ => some st
  | .panicked => none
  | .exited => none

/-! ## Theorems: the repository registry -/

/-- C1: when the name of an add request is already present in the registry
loaded by `prepareRepo`, `addRepo` answers 409 "Repository already exists",
leaves the world (the registry file included) as it was, attempts no registry
write and no index download. -/
theorem addRepo_conflict (env : Env) (w : World) (reqBody : String) (repoElement : RepoElement)
    (hreq : env.unmarshalRepo reqBody = some repoElement)
    (hhas : (prepareRepo env w).1.Has repoElement.Name = true) :
    (addRepo env w (some reqBody)).out = .responded 409 (.text "Repository already exists") ∧
    (addRepo env w (some reqBody)).world = w ∧
    registryWrites (addRepo env w (some reqBody)).trace = 0 ∧
    indexDownloads (addRepo env w (some reqBody)).trace = 0 := by
  simp only [prepareRepo] at hhas
  have h : addRepo env w (some reqBody) =
      ⟨.responded 409 (.text "Repository already exists"), w, []⟩ := by
    simp [addRepo, prepareRepo, hreq, hhas]
  rw [h]
  exact ⟨rfl, rfl, rfl, rfl⟩

/-- C1 at a registry holding `stable` and the request body `bodyStable`. -/
theorem addRepo_conflict_witness :
    (addRepo sampleEnv ⟨.content ⟨[stable]⟩, []⟩ (some bodyStable)).out =
      .responded 409 (.text "Repository already exists") ∧
    (addRepo sampleEnv ⟨.content ⟨[stable]⟩, []⟩ (some bodyStable)).world =
      ⟨.content ⟨[stable]⟩, []⟩ ∧
    registryWrites (addRepo sampleEnv ⟨.content ⟨[stable]⟩, []⟩ (some bodyStable)).trace = 0 ∧
    indexDownloads (addRepo sampleEnv ⟨.content ⟨[stable]⟩, []⟩ (some bodyStable)).trace = 0 :=
  addRepo_conflict sampleEnv ⟨.content ⟨[stable]⟩, []⟩ bodyStable ⟨"stable", "https://example/index"⟩
    (by decide) (by decide)

/-- What `addRepo` returns on an empty registry when the decoder, the index
download and the write all succeed. -/
theorem addRepo_on_empty (env : Env) (w : World) (reqBody : String) (re : RepoElement)
    (hempty : w.registry = .absent ∨ w.registry = .content ⟨[]⟩)
    (hreq : env.unmarshalRepo reqBody = some re)
    (hnew : env.NewChartRepository ⟨re.Name, re.Url⟩ = true)
    (hindex : env.DownloadIndexFile ⟨re.Name, re.Url⟩ = true)
    (hwrite : ∀ path f, env.WriteFile path f = true) :
    addRepo env w (some reqBody) =
      ⟨.responded 201 (.text "Added Repository"),
       { w with registry := .content ⟨[⟨re.Name, re.Url⟩]⟩ },
       [.downloadIndex ⟨re.Name, re.Url⟩,
        .writeRegistry env.RepositoryConfig ⟨[⟨re.Name, re.Url⟩]⟩,
        .downloadIndex ⟨re.Name, re.Url⟩]⟩ := by
  rcases hempty with h | h <;>
    simp [addRepo, prepareRepo, FileState.entries, File.Has, File.Update, updateEntries,
      WriteFile, updateRepo, LoadFile, hreq, hnew, hindex, hwrite, h]

/-- C2: on an empty registry (file absent or without entries), when the request
decodes to `{name, url}`, the index download succeeds and the writes succeed,
`addRepo` answers 201, a following `listRepo` answers 200 with exactly
`[{name, url}]`, a following `deleteRepo` of that name answers 200, and a
following `listRepo` answers 200 with the empty list. -/
theorem add_list_delete_roundtrip (env : Env) (w : World) (reqBody delBody : String)
    (re del : RepoElement)
    (hempty : w.registry = .absent ∨ w.registry = .content ⟨[]⟩)
    (hreq : env.unmarshalRepo reqBody = some re)
    (hdel : env.unmarshalRepo delBody = some del) (hname : del.Name = re.Name)
    (hnew : env.NewChartRepository ⟨re.Name, re.Url⟩ = true)
    (hindex : env.DownloadIndexFile ⟨re.Name, re.Url⟩ = true)
    (hwrite : ∀ path f, env.WriteFile path f = true) :
    (addRepo env w (some reqBody)).out = .responded 201 (.text "Added Repository") ∧
    (listRepo env (addRepo env w (some reqBody)).world).out = .responded 200 (.repos [re]) ∧
    (deleteRepo env (listRepo env (addRepo env w (some reqBody)).world).world (some delBody)).out
      = .responded 200 (.text "Repository Removed") ∧
    (listRepo env
      (deleteRepo env (listRepo env (addRepo env w (some reqBody)).world).world
        (some delBody)).world).out = .responded 200 (.repos []) := by
  rw [addRepo_on_empty env w reqBody re hempty hreq hnew hindex hwrite]
  simp [listRepo, deleteRepo, prepareRepo, FileState.entries, File.Remove, WriteFile, LoadFile,
    hdel, hname, hwrite]

/-- C2 at the missing registry file, adding and removing `stable`. -/
theorem add_list_delete_roundtrip_witness :
    (addRepo sampleEnv emptyWorld (some bodyStable)).out
      = .responded 201 (.text "Added Repository") ∧
    (listRepo sampleEnv (addRepo sampleEnv emptyWorld (some bodyStable)).world).out
      = .responded 200 (.repos [⟨"stable", "https://example/index"⟩]) ∧
    (deleteRepo sampleEnv
      (listRepo sampleEnv (addRepo sampleEnv emptyWorld (some bodyStable)).world).world
      (some bodyStableName)).out = .responded 200 (.text "Repository Removed") ∧
    (listRepo sampleEnv
      (deleteRepo sampleEnv
        (listRepo sampleEnv (addRepo sampleEnv emptyWorld (some bodyStable)).world).world
        (some bodyStableName)).world).out = .responded 200 (.repos []) :=
  add_list_delete_roundtrip sampleEnv emptyWorld bodyStable bodyStableName
    ⟨"stable", "https://example/index"⟩ ⟨"stable", ""⟩ (Or.inl rfl) (by decide) (by decide) rfl
    rfl rfl (fun _ _ => rfl)

/-- C3 (amended): on an empty registry (file absent or without entries)
`deleteRepo` answers 500 "Repositories Not Configured" for every name, leaves
the world as it was and attempts no registry write. -/
theorem deleteRepo_empty (env : Env) (w : World) (reqBody : String) (re : RepoElement)
    (hempty : w.registry = .absent ∨ w.registry = .content ⟨[]⟩)
    (hreq : env.unmarshalRepo reqBody = some re) :
    (deleteRepo env w (some reqBody)).out
      = .responded 500 (.text "Repositories Not Configured") ∧
    (deleteRepo env w (some reqBody)).world = w ∧
    registryWrites (deleteRepo env w (some reqBody)).trace = 0 := by
  have h : deleteRepo env w (some reqBody) =
      ⟨.responded 500 (.text "Repositories Not Configured"), w, []⟩ := by
    rcases hempty with h | h <;> simp [deleteRepo, prepareRepo, LoadFile, hreq, h]
  rw [h]
  exact ⟨rfl, rfl, rfl⟩

/-- C3 (amended) at the missing registry file and the name `stable`. -/
theorem deleteRepo_empty_witness :
    (deleteRepo sampleEnv emptyWorld (some bodyStableName)).out
      = .responded 500 (.text "Repositories Not Configured") ∧
    (deleteRepo sampleEnv emptyWorld (some bodyStableName)).world = emptyWorld ∧
    registryWrites (deleteRepo sampleEnv emptyWorld (some bodyStableName)).trace = 0 :=
  deleteRepo_empty sampleEnv emptyWorld bodyStableName ⟨"stable", ""⟩ (Or.inl rfl) (by decide)

/-- C3 as stated fails: on the missing registry file `deleteRepo` of `stable`
writes status 500, not 404. -/
theorem deleteRepo_empty_not_404 :
    emptyWorld.registry = .absent ∧
    (deleteRepo sampleEnv emptyWorld (some bodyStableName)).out.status = some 500 ∧
    (deleteRepo sampleEnv emptyWorld (some bodyStableName)).out.status ≠ some 404 := by
  decide

/-- The names of a registry stay pairwise distinct through `addRepo`. -/
theorem addRepo_names_nodup (env : Env) (w : World) (body : Option String)
    (h : (w.registry.entries.map Entry.Name).Nodup) :
    ((addRepo env w body).world.registry.entries.map Entry.Name).Nodup := by
  unfold addRepo
  cases body with
  | none => exact h
  | some reqBody =>
    simp only [prepareRepo]
    cases hreq : env.unmarshalRepo reqBody with
    | none => exact h
    | some re =>
      simp only
      by_cases hhas : File.Has ⟨w.registry.entries⟩ re.Name = true
      · simp only [hhas, if_true]
        exact h
      · have hnot : re.Name ∉ w.registry.entries.map Entry.Name := by
          rw [has_eq_true_iff] at hhas
          exact hhas
        simp only [hhas]
        by_cases hnew : env.NewChartRepository ⟨re.Name, re.Url⟩ = true
        · by_cases hidx : env.DownloadIndexFile ⟨re.Name, re.Url⟩ = true
          · by_cases hw : env.WriteFile env.RepositoryConfig
                (File.Update ⟨w.registry.entries⟩ ⟨re.Name, re.Url⟩) = true
            · have hfinal : ((File.Update ⟨w.registry.entries⟩
                  ⟨re.Name, re.Url⟩).Repositories.map Entry.Name).Nodup := by
                simp only [File.Update]
                rw [updateEntries_of_not_mem _ _ hnot]
                exact nodup_names_append _ _ h hnot
              simp only [hnew, hidx, WriteFile, hw, if_true, Bool.not_true, Bool.false_eq_true,
                if_false]
              cases updateRepo env _ env.RepositoryConfig <;> exact hfinal
            · simp [hnew, hidx, WriteFile, hw]
              exact h
          · simp [hnew, hidx]
            exact h
        · simp [hnew]
          exact h

/-- The names of a registry stay pairwise distinct through `deleteRepo`. -/
theorem deleteRepo_names_nodup (env : Env) (w : World) (body : Option String)
    (h : (w.registry.entries.map Entry.Name).Nodup) :
    ((deleteRepo env w body).world.registry.entries.map Entry.Name).Nodup := by
  unfold deleteRepo
  cases body with
  | none => exact h
  | some reqBody =>
    simp only [prepareRepo]
    cases hreq : env.unmarshalRepo reqBody with
    | none => exact h
    | some re =>
      simp only
      cases hreg : w.registry with
      | absent => simpa [LoadFile, hreg] using h
      | unreadable => simpa [LoadFile, hreg] using h
      | content f =>
        have hf : (f.Repositories.map Entry.Name).Nodup := by simpa [hreg, FileState.entries] using h
        simp only [LoadFile, hreg, File.Remove]
        split
        · simpa [hreg, FileState.entries] using hf
        · split
          · simpa [hreg, FileState.entries] using hf
          · simp only [WriteFile]
            split
            · rename_i heq
              split at heq
              · cases heq
              · cases heq
                simpa [hreg, FileState.entries] using hf
            · rename_i heq
              split at heq
              · cases heq
                exact nodup_names_filter _ _ hf
              · cases heq

/-- C9: for every registry whose entry names are pairwise distinct, the
registry left by `addRepo` and the registry left by `deleteRepo` (whatever the
request and the outcome, so in particular the registry a successful call
persists) have pairwise distinct entry names. -/
theorem names_unique_invariant (env : Env) (w : World) (addBody delBody : Option String)
    (h : (w.registry.entries.map Entry.Name).Nodup) :
    ((addRepo env w addBody).world.registry.entries.map Entry.Name).Nodup ∧
    ((deleteRepo env w delBody).world.registry.entries.map Entry.Name).Nodup :=
  ⟨addRepo_names_nodup env w addBody h, deleteRepo_names_nodup env w delBody h⟩

/-- C9 at the registry holding `stable`: adding `bitnami` answers 201 and
persists two entries, deleting `stable` answers 200 and persists none. -/
theorem names_unique_invariant_witness :
    (addRepo sampleEnv ⟨.content ⟨[stable]⟩, []⟩ (some bodyBitnami)).out.status = some 201 ∧
    (addRepo sampleEnv ⟨.content ⟨[stable]⟩, []⟩ (some bodyBitnami)).world.registry
      = .content ⟨[stable, bitnami]⟩ ∧
    (deleteRepo sampleEnv ⟨.content ⟨[stable]⟩, []⟩ (some bodyStableName)).out.status
      = some 200 ∧
    (deleteRepo sampleEnv ⟨.content ⟨[stable]⟩, []⟩ (some bodyStableName)).world.registry
      = .content ⟨[]⟩ ∧
    (((addRepo sampleEnv ⟨.content ⟨[stable]⟩, []⟩
      (some bodyBitnami)).world.registry.entries.map Entry.Name).Nodup ∧
     ((deleteRepo sampleEnv ⟨.content ⟨[stable]⟩, []⟩
      (some bodyStableName)).world.registry.entries.map Entry.Name).Nodup) :=
  ⟨by decide, by decide, by decide, by decide,
   names_unique_invariant sampleEnv ⟨.content ⟨[stable]⟩, []⟩ (some bodyBitnami)
     (some bodyStableName) (by decide)⟩

/-! ## Theorems: `installChart` -/

/-- A trace has no engine install call exactly when none of its events is one. -/
theorem installCalls_eq_zero_iff (t : List Event) :
    installCalls t = 0 ↔ ∀ c ch, Event.engineInstall c ch ∉ t := by
  unfold installCalls
  rw [List.length_eq_zero, List.filter_eq_nil_iff]
  constructor
  · intro h c ch hmem
    exact absurd (h _ hmem) (by simp)
  · intro h e he
    cases e <;> simp
    exact h _ _ he

/-- The source resolution adds no engine install call to the trace, whether
it exits early or not. -/
theorem resolveSource_calls (env : Env) (w : World) (request : InstallRequest)
    (ce : chartElement) (t0 : List Event) (h0 : installCalls t0 = 0) :
    match resolveSource env w request ce t0 with
    | .error r => installCalls r.trace = 0
    | .ok (_, _, _, _, t1) => installCalls t1 = 0 := by
  unfold resolveSource
  by_cases hrepo : ce.RepoName = ""
  · rw [if_pos hrepo]
    cases request.file with
    | none => exact h0
    | some fb =>
      show installCalls (t0 ++ [Event.stageUpload (localChartPath ++ fb.1)]) = 0
      simp only [installCalls, List.filter_append, List.length_append] at h0 ⊢
      simp [h0]
  · rw [if_neg hrepo]
    exact h0

/-- What the first half of `installChart` guarantees when it ends with a loaded
chart: the decoded request is the one it carries, the client's release name is
the request's `name`, and no engine install call has been made. -/
theorem installChartLoad_ok (env : Env) (w : World) (request : InstallRequest) (l : Loaded)
    (h : installChartLoad env w request = .ok l) :
    env.unmarshalChart request.data = some l.chartElement ∧
    l.client.ReleaseName = l.chartElement.Name ∧
    installCalls l.trace = 0 := by
  unfold installChartLoad at h
  cases hreq : env.unmarshalChart request.data with
  | none => simp [hreq] at h
  | some ce =>
    simp only [hreq] at h
    have hsrc := resolveSource_calls env w request ce
      [Event.setenv "HELM_NAMESPACE" ce.ReleaseName] rfl
    split at h
    · cases h
    · rename_i heq
      rw [heq] at hsrc
      split at h
      · cases h
      · split at h
        · cases h
        · split at h
          · cases h
          · split at h
            · cases h
            · cases h
              exact ⟨rfl, rfl, hsrc⟩

/-- An early exit of the first half of `installChart` has made no engine
install call. -/
theorem installChartLoad_error (env : Env) (w : World) (request : InstallRequest) (r : Result)
    (h : installChartLoad env w request = .error r) : installCalls r.trace = 0 := by
  unfold installChartLoad at h
  cases hreq : env.unmarshalChart request.data with
  | none =>
    simp only [hreq] at h
    cases h
    rfl
  | some ce =>
    simp only [hreq] at h
    have hsrc := resolveSource_calls env w request ce
      [Event.setenv "HELM_NAMESPACE" ce.ReleaseName] rfl
    split at h
    · rename_i heq
      rw [heq] at hsrc
      cases h
      exact hsrc
    · rename_i heq
      rw [heq] at hsrc
      split at h
      · cases h
        exact hsrc
      · split at h
        · cases h
          exact hsrc
        · split at h
          · cases h
            exact hsrc
          · split at h
            · cases h
              exact hsrc
            · cases h

/-- The validation of `isChartInstallable` accepts exactly the empty type and
`"application"`. -/
theorem isChartInstallable_iff (ch : Chart) :
    (isChartInstallable ch).1 = true ↔
      (ch.Metadata.Type_ = "" ∨ ch.Metadata.Type_ = "application") := by
  unfold isChartInstallable
  by_cases h : ch.Metadata.Type_ = "" ∨ ch.Metadata.Type_ = "application"
  · simp [h]
  · simp [h]

/-- C4: for every chart that `installChart` has loaded, `isChartInstallable`
accepts it if and only if its declared type is empty or `"application"`; with
any other declared type `installChart` answers 500 "Invalid Chart" and makes
no engine install call, whatever the chart's dependencies and whatever the
dependency check and the dependency manager would answer. -/
theorem installChart_validation (env : Env) (w : World) (request : InstallRequest) (l : Loaded)
    (hload : installChartLoad env w request = .ok l) :
    ((isChartInstallable l.chartRequested).1 = true ↔
      (l.chartRequested.Metadata.Type_ = "" ∨ l.chartRequested.Metadata.Type_ = "application")) ∧
    (¬ (l.chartRequested.Metadata.Type_ = "" ∨ l.chartRequested.Metadata.Type_ = "application") →
      (installChart env w request).out = .responded 500 (.text "Invalid Chart") ∧
      installCalls (installChart env w request).trace = 0) := by
  refine ⟨isChartInstallable_iff _, fun hty => ?_⟩
  have hno : (isChartInstallable l.chartRequested).1 = false := by
    cases hv : (isChartInstallable l.chartRequested).1
    · rfl
    · exact absurd ((isChartInstallable_iff _).1 hv) hty
  have hrun : installChart env w request =
      ⟨.responded 500 (.text "Invalid Chart"), l.world, l.trace⟩ := by
    simp [installChart, hload, installChartRun, hno]
  rw [hrun]
  exact ⟨rfl, (installChartLoad_ok env w request l hload).2.2⟩

/-- C4 at a library chart that declares a dependency, the dependency check
reporting it fulfilled: the chart is loaded, rejected by the validation, and
the handler answers 500 "Invalid Chart" without an engine install call. -/
theorem installChart_validation_witness :
    installChartLoad libraryEnv emptyWorld ⟨dataFromRepo, none⟩
      = .ok (loadedFromRepo libraryChart) ∧
    (isChartInstallable libraryChart).1 = false ∧
    (installChart libraryEnv emptyWorld ⟨dataFromRepo, none⟩).out
      = .responded 500 (.text "Invalid Chart") ∧
    installCalls (installChart libraryEnv emptyWorld ⟨dataFromRepo, none⟩).trace = 0 :=
  ⟨rfl, by decide,
   (installChart_validation libraryEnv emptyWorld ⟨dataFromRepo, none⟩
    (loadedFromRepo libraryChart) rfl).2 (by decide)⟩

/-- C5: when the chart is located, loaded and installable, declares
dependencies, the dependency check reports them unfulfilled and the client's
`DependencyUpdate` is off, `installChart` answers 500 "Error in Chart
Dependency" and the number of engine install calls is 0. -/
theorem installChart_unmet_dependencies (env : Env) (w : World) (request : InstallRequest)
    (l : Loaded) (req : List String)
    (hload : installChartLoad env w request = .ok l)
    (hvalid : (isChartInstallable l.chartRequested).1 = true)
    (hdeps : l.chartRequested.Metadata.Dependencies = some req)
    (hunmet : env.CheckDependencies l.chartRequested req = false)
    (hauto : l.client.DependencyUpdate = false) :
    (installChart env w request).out = .responded 500 (.text "Error in Chart Dependency") ∧
    installCalls (installChart env w request).trace = 0 := by
  have hrun : installChart env w request =
      ⟨.responded 500 (.text "Error in Chart Dependency"), l.world, l.trace⟩ := by
    simp [installChart, hload, installChartRun, dependencyBlock, hvalid, hdeps, hunmet, hauto]
  rw [hrun]
  exact ⟨rfl, (installChartLoad_ok env w request l hload).2.2⟩

/-- C5 at an application chart declaring `redis`, the dependency check
reporting it missing. -/
theorem installChart_unmet_dependencies_witness :
    (installChart unmetEnv emptyWorld ⟨dataFromRepo, none⟩).out
      = .responded 500 (.text "Error in Chart Dependency") ∧
    installCalls (installChart unmetEnv emptyWorld ⟨dataFromRepo, none⟩).trace = 0 :=
  installChart_unmet_dependencies unmetEnv emptyWorld ⟨dataFromRepo, none⟩
    (loadedFromRepo dependentChart) ["redis"] rfl (by decide) rfl rfl rfl

/-- The dependency block adds no engine install call to the trace, whether it
exits early or not. -/
theorem dependencyBlock_calls (env : Env) (l : Loaded) (hl : installCalls l.trace = 0) :
    match dependencyBlock env l with
    | .error r => installCalls r.trace = 0
    | .ok t => installCalls t = 0 := by
  have happ : installCalls (l.trace ++ [.dependencyUpdate l.cp]) = 0 := by
    simp only [installCalls, List.filter_append, List.length_append] at hl ⊢
    simp [hl]
  unfold dependencyBlock
  cases l.chartRequested.Metadata.Dependencies with
  | none => exact hl
  | some req =>
    simp only
    by_cases hc : env.CheckDependencies l.chartRequested req = true
    · rw [if_pos hc]
      exact hl
    · rw [if_neg hc]
      by_cases hu : l.client.DependencyUpdate = true
      · rw [if_pos hu]
        by_cases hm : env.ManagerUpdate l.cp = true
        · rw [if_pos hm]
          exact happ
        · rw [if_neg hm]
          exact happ
      · rw [if_neg hu]
        exact hl

/-- The engine install calls of the second half of `installChart` carry the
request's `releaseName` as namespace and the loaded client's release name. -/
theorem installChartRun_call (env : Env) (l : Loaded) (client : Install) (chart : Chart)
    (hl : installCalls l.trace = 0)
    (hcall : Event.engineInstall client chart ∈ (installChartRun env l).trace) :
    client = { l.client with Namespace := l.chartElement.ReleaseName } := by
  have hnot := (installCalls_eq_zero_iff l.trace).1 hl
  have hdep := dependencyBlock_calls env l hl
  unfold installChartRun at hcall
  split at hcall
  · exact absurd hcall (hnot _ _)
  · split at hcall
    · rename_i r heq
      rw [heq] at hdep
      exact absurd hcall ((installCalls_eq_zero_iff r.trace).1 hdep _ _)
    · rename_i t heq
      rw [heq] at hdep
      have ht := (installCalls_eq_zero_iff t).1 hdep
      simp only at hcall
      split at hcall
      · simp only [List.mem_append, List.mem_singleton] at hcall
        rcases hcall with hc | hc
        · exact absurd hc (ht _ _)
        · cases hc
          rfl
      · simp only [List.mem_append, List.mem_singleton] at hcall
        rcases hcall with (hc | hc) | hc
        · exact absurd hc (ht _ _)
        · cases hc
          rfl
        · cases hc

/-- C6 (amended): for every install request that reaches the engine install
call, the namespace passed to the engine is the request's `releaseName` and
the release name passed to the engine is the request's `name`. -/
theorem installChart_engine_arguments (env : Env) (w : World) (request : InstallRequest)
    (ce : chartElement) (client : Install) (chart : Chart)
    (hreq : env.unmarshalChart request.data = some ce)
    (hcall : Event.engineInstall client chart ∈ (installChart env w request).trace) :
    client.Namespace = ce.ReleaseName ∧ client.ReleaseName = ce.Name := by
  unfold installChart at hcall
  cases hload : installChartLoad env w request with
  | error r =>
    rw [hload] at hcall
    exact absurd hcall
      ((installCalls_eq_zero_iff r.trace).1 (installChartLoad_error env w request r hload) _ _)
  | ok l =>
    rw [hload] at hcall
    obtain ⟨hce, hname, hzero⟩ := installChartLoad_ok env w request l hload
    have hsame : l.chartElement = ce := by
      rw [hreq] at hce
      exact (Option.some.inj hce).symm
    have hclient := installChartRun_call env l client chart hzero hcall
    subst hclient
    subst hsame
    exact ⟨rfl, hname⟩

/-- C6 (amended) at the request `dataFromRepo`: the engine is called with
namespace `prod` (the `releaseName`) and release name `nginx` (the `name`). -/
theorem installChart_engine_arguments_witness :
    sampleEnv.unmarshalChart dataFromRepo = some ⟨"nginx", "prod", "stable", "", "", ""⟩ ∧
    Event.engineInstall ⟨"", false, false, "nginx", "prod"⟩ appChart ∈
      (installChart sampleEnv emptyWorld ⟨dataFromRepo, none⟩).trace ∧
    ((⟨"", false, false, "nginx", "prod"⟩ : Install).Namespace = "prod" ∧
     (⟨"", false, false, "nginx", "prod"⟩ : Install).ReleaseName = "nginx") :=
  ⟨by decide, by decide,
   installChart_engine_arguments sampleEnv emptyWorld ⟨dataFromRepo, none⟩
    ⟨"nginx", "prod", "stable", "", "", ""⟩ ⟨"", false, false, "nginx", "prod"⟩ appChart
    (by decide) (by decide)⟩

/-- C6 as stated fails: the request `dataFromRepo` has `releaseName` "prod" and
`name` "nginx"; the engine install call is made with release name "nginx",
which is not the request's `releaseName`. -/
theorem installChart_release_name_not_releaseName :
    sampleEnv.unmarshalChart dataFromRepo = some ⟨"nginx", "prod", "stable", "", "", ""⟩ ∧
    Event.engineInstall ⟨"", false, false, "nginx", "prod"⟩ appChart ∈
      (installChart sampleEnv emptyWorld ⟨dataFromRepo, none⟩).trace ∧
    (⟨"", false, false, "nginx", "prod"⟩ : Install).ReleaseName ≠
      (⟨"nginx", "prod", "stable", "", "", ""⟩ : chartElement).ReleaseName := by
  decide

/-- The path written by the upload and the path removed by the cleanup differ
for every filename. -/
theorem staged_path_ne_removed_path (fileName : String) :
    localChartPath ++ fileName ≠ "/opt/app/helmclient/" ++ fileName := by
  intro h
  have hlen := congrArg String.length h
  rw [String.length_append, String.length_append] at hlen
  have h1 : localChartPath.length = 26 := by decide
  have h2 : ("/opt/app/helmclient/" : String).length = 20 := by decide
  omega

/-- C7, the code at an upload named `mychart.tgz`: the install succeeds (201),
the upload is written to `/opt/app/helmclient/chart/mychart.tgz`, the cleanup
asks to remove `/opt/app/helmclient/mychart.tgz`, and the staged file is still
there afterwards. -/
theorem installChart_cleanup_wrong_path :
    (installChart sampleEnv emptyWorld ⟨dataUpload, some ("mychart.tgz", [80, 75])⟩).out
      = .responded 201 (.text "Chart Installed Successfully") ∧
    (installChart sampleEnv emptyWorld ⟨dataUpload, some ("mychart.tgz", [80, 75])⟩).trace
      = [.setenv "HELM_NAMESPACE" "prod",
         .stageUpload "/opt/app/helmclient/chart/mychart.tgz",
         .engineInstall ⟨"", false, false, "nginx", "prod"⟩ appChart,
         .remove "/opt/app/helmclient/mychart.tgz"] ∧
    (installChart sampleEnv emptyWorld ⟨dataUpload, some ("mychart.tgz", [80, 75])⟩).world.files
      = [("/opt/app/helmclient/chart/mychart.tgz", [80, 75])] := by
  decide

/-- A body the decoder rejects makes `addRepo` leave through `panic(err)`
without a response and without any external call. -/
theorem addRepo_undecodable (env : Env) (w : World) (reqBody : String)
    (h : env.unmarshalRepo reqBody = none) :
    addRepo env w (some reqBody) = ⟨.panicked, w, []⟩ := by
  simp [addRepo, h]

/-- A `data` value the decoder rejects makes `installChart` answer 400
"Invalid Input" without any external call. -/
theorem installChart_undecodable (env : Env) (w : World) (request : InstallRequest)
    (h : env.unmarshalChart request.data = none) :
    installChart env w request = ⟨.responded 400 (.text "Invalid Input"), w, []⟩ := by
  simp [installChart, installChartLoad, h]

/-- C10, the code at the body `{`: `installChart` answers 400 "Invalid Input"
with no external call, while `addRepo` leaves through `panic(err)` and writes
no status at all. -/
theorem addRepo_malformed_panics :
    sampleEnv.unmarshalRepo bodyMalformed = none ∧
    addRepo sampleEnv emptyWorld (some bodyMalformed) = ⟨.panicked, emptyWorld, []⟩ ∧
    (addRepo sampleEnv emptyWorld (some bodyMalformed)).out.status ≠ some 400 ∧
    installChart sampleEnv emptyWorld ⟨bodyMalformed, none⟩
      = ⟨.responded 400 (.text "Invalid Input"), emptyWorld, []⟩ := by
  decide

/-! ## Theorems: two processes -/

/-- A process running alone through its five steps ends as `addRepo` does: same
outcome, same world. -/
theorem run_alone_eq_addRepo (env : Env) (w : World) (reqBody : String) (re other : RepoElement)
    (hreq : env.unmarshalRepo reqBody = some re) :
    (run env [false, false, false, false, false] (System.init w re other)).first.pc
      = .done (addRepo env w (some reqBody)).out ∧
    (run env [false, false, false, false, false] (System.init w re other)).world
      = (addRepo env w (some reqBody)).world := by
  simp only [run, List.foldl, System.init, step, System.proc, System.goto, addRepo, hreq,
    prepareRepo, Bool.false_eq_true, if_false]
  by_cases hhas : File.Has ⟨w.registry.entries⟩ re.Name = true
  · simp [hhas, step, System.proc, System.goto]
  · by_cases hnew : env.NewChartRepository ⟨re.Name, re.Url⟩ = true
    · by_cases hidx : env.DownloadIndexFile ⟨re.Name, re.Url⟩ = true
      · by_cases hw : env.WriteFile env.RepositoryConfig
            (File.Update ⟨w.registry.entries⟩ ⟨re.Name, re.Url⟩) = true
        · cases hup : updateRepo env
              { w with registry := .content (File.Update ⟨w.registry.entries⟩ ⟨re.Name, re.Url⟩) }
              env.RepositoryConfig <;>
            simp [hhas, hnew, hidx, hw, hup, step, System.proc, System.goto, WriteFile]
        · simp [hhas, hnew, hidx, hw, step, System.proc, System.goto, WriteFile]
      · simp [hhas, hnew, hidx, step, System.proc, System.goto]
    · simp [hhas, hnew, step, System.proc, System.goto]

/-- C8, the code at two processes adding `stable` and `bitnami` to a missing
registry file under `lostUpdateSchedule`: each process obtains the lock at its
first attempt (steps 1 and 4), both answer 201, and the registry file holds
`bitnami` only at the end; `stable` is lost. -/
theorem concurrent_add_lost_update :
    (run sampleEnv (lostUpdateSchedule.take 1)
      (System.init emptyWorld ⟨"stable", "https://example/index"⟩
        ⟨"bitnami", "https://example/bitnami"⟩)).first.pc = .locked ∧
    (run sampleEnv (lostUpdateSchedule.take 4)
      (System.init emptyWorld ⟨"stable", "https://example/index"⟩
        ⟨"bitnami", "https://example/bitnami"⟩)).second.pc = .locked ∧
    (run sampleEnv lostUpdateSchedule
      (System.init emptyWorld ⟨"stable", "https://example/index"⟩
        ⟨"bitnami", "https://example/bitnami"⟩)).first.pc
      = .done (.responded 201 (.text "Added Repository")) ∧
    (run sampleEnv lostUpdateSchedule
      (System.init emptyWorld ⟨"stable", "https://example/index"⟩
        ⟨"bitnami", "https://example/bitnami"⟩)).second.pc
      = .done (.responded 201 (.text "Added Repository")) ∧
    (run sampleEnv lostUpdateSchedule
      (System.init emptyWorld ⟨"stable", "https://example/index"⟩
        ⟨"bitnami", "https://example/bitnami"⟩)).world.registry = .content ⟨[bitnami]⟩ ∧
    stable ∉ (run sampleEnv lostUpdateSchedule
      (System.init emptyWorld ⟨"stable", "https://example/index"⟩
        ⟨"bitnami", "https://example/bitnami"⟩)).world.registry.entries := by
  decide

end HelmWebClient
